import Mathlib

/-!
Shallow embedding of the YummyCraft launcher core (`src/main.py`):
mod reconciliation (`ModManager.check_mods`), streamed downloads
(`ModManager.download_mod`, `VersionManager.download_fabric_base`),
the version gate (`VersionManager.check_fabric_version`), build deletion
(`VersionManager.delete_build`) and the launch pipeline
(`Launcher.play_game`).  Network responses, file contents and the zip
library are modelled as explicit data; Python exceptions are modelled as
values of `PyError` threaded through the control flow exactly where the
source raises or catches them.
-/

namespace YummyCraft

abbrev Name := String

abbrev Digest := String

abbrev Bytes := List Nat

abbrev Dict := List (Name × Digest)

/-- Python exceptions that the embedded code can raise.
`requestException` models `requests.exceptions.RequestException`,
`ioError` an `OSError` from `open`/`read`, `fileNotFoundError` the error
`shutil.rmtree` raises on a missing path, `typeError` the error from
`x in None`, `attributeError` the error from `None.items()`, and
`zeroDivisionError` the error from `x / 0`. -/
inductive PyError where
  | requestException
  | zeroDivisionError
  | typeError
  | attributeError
  | ioError
  | fileNotFoundError
  deriving DecidableEq

/-- Python `dict.get` / `dict[k]` on a JSON-object dictionary, modelled as
lookup of the first (unique) matching key in an association list. -/
def dictGet : Dict → Name → Option Digest
  | [], _ => none
  | (k, v) :: rest, key => if k == key then some v else dictGet rest key

/-- The key set of a dictionary, in insertion order (`dict.keys()`). -/
def dictKeys (d : Dict) : List Name := d.map Prod.fst

/-- The first loop of `check_mods` (main.py lines 180-185): the local mod
names that are deleted, namely every local name not a key of the remote
manifest (`if local_mod not in remote_mods`). -/
def deleteDecisions (L R : Dict) : List Name :=
  (dictKeys L).filter (fun k => !((dictKeys R).contains k))

/-- The second loop of `check_mods` (main.py lines 187-197): the remote mod
names passed to `download_mod`, namely every remote entry whose local digest
differs (`local_mods.get(remote_mod) != remote_hash`, where a missing local
entry gives `None` which never equals a digest string). -/
def downloadDecisions (L R : Dict) : List Name :=
  (R.filter (fun p => !(dictGet L p.1 == some p.2))).map Prod.fst

/-- The implicit else-branch of the second loop of `check_mods`: remote
entries whose local digest matches, for which no action is taken. -/
def keepDecisions (L R : Dict) : List Name :=
  (R.filter (fun p => dictGet L p.1 == some p.2)).map Prod.fst

/-- One event of a streamed HTTP body as delivered by
`response.iter_content(1024)`: either a chunk of bytes, or a mid-stream
transport failure (the iterator raising `RequestException`). -/
inductive StreamItem where
  | chunk (b : Bytes)
  | netFail
  deriving DecidableEq

/-- An HTTP interaction of `requests.get`: either the call itself raises a
`RequestException` (`exn`), or it yields a response with a status code, an
optional `Content-Length` header, and a body stream. -/
inductive HttpFetch where
  | exn
  | resp (status : Nat) (contentLength : Option Nat) (items : List StreamItem)
  deriving DecidableEq

/-- `int(response.headers.get('Content-Length', 0))`: the total size used
for percentage computation, `0` when the header is absent. -/
def totalSizeOf (cl : Option Nat) : Nat := cl.getD 0

/-- The shared download loop (main.py lines 141-146 and 238-246): write the
chunk, add its length to `downloaded`, then compute
`percent = int(downloaded * 100 / total_size)`.  Returns the bytes written
so far and the exception, if any, that the loop raises: a mid-stream
transport failure raises `requestException`; when `total_size` is `0` the
percent computation raises `zeroDivisionError` (after the chunk was already
written). -/
def downloadLoop (totalSize : Nat) : List StreamItem → Bytes → Bytes × Option PyError
  | [], acc => (acc, none)
  | .netFail :: _, acc => (acc, some .requestException)
  | .chunk b :: rest, acc =>
      if totalSize = 0 then (acc ++ b, some .zeroDivisionError)
      else downloadLoop totalSize rest (acc ++ b)

/-- `ModManager.download_mod` (main.py lines 132-156), viewed through the
file at the final destination path `mods_directory / mod_name`.
`existing` is the file (if any) already at that path; the result is the
file at that path afterwards together with the exception, if any, that
escapes the function.  `open(local_path, "wb")` truncates the destination
before streaming, so on status 200 the destination always ends up holding
exactly the bytes written by the loop.  The surrounding
`except requests.exceptions.RequestException` catches transport errors
(including a raising `requests.get`) but not `ZeroDivisionError`; a
non-2xx status is only logged. -/
def download_mod (existing : Option Bytes) (fetch : HttpFetch) : Option Bytes × Option PyError :=
  match fetch with
  | .exn => (existing, none)
  | .resp status cl items =>
      if status = 200 then
        match downloadLoop (totalSizeOf cl) items [] with
        | (written, none) => (some written, none)
        | (written, some .requestException) => (some written, none)
        | (written, some e) => (some written, some e)
      else (existing, none)

/-- Result of one run of `VersionManager.download_fabric_base`:
the file at `base_fabric.zip` afterwards, whether the archive contents were
extracted into the build directory, and the exception, if any, escaping the
function. -/
structure FabricRun where
  zipAfter : Option Bytes
  extractionDone : Bool
  error : Option PyError
  deriving DecidableEq

/-- `VersionManager.download_fabric_base` (main.py lines 224-265).
Unlike `download_mod`, nothing here catches a transport failure, so a
raising `requests.get` or a mid-stream failure propagates; the zero-total
percent division likewise propagates.  Extraction
(`zip_ref.extractall`, whose success is the `extractFails` input since the
zip library is external) is wrapped in `try/except` that only logs, and so
is the subsequent unconditional `os.remove(local_zip_path)` (whose own
failure is the `removeFails` input); a non-2xx status is only logged. -/
def download_fabric_base (zipBefore : Option Bytes) (fetch : HttpFetch)
    (extractFails : Bool) (removeFails : Bool) : FabricRun :=
  match fetch with
  | .exn => { zipAfter := zipBefore, extractionDone := false, error := some .requestException }
  | .resp status cl items =>
      if status = 200 then
        match downloadLoop (totalSizeOf cl) items [] with
        | (written, some e) =>
            { zipAfter := some written, extractionDone := false, error := some e }
        | (written, none) =>
            { zipAfter := if removeFails then some written else none
              extractionDone := !extractFails
              error := none }
      else { zipAfter := zipBefore, extractionDone := false, error := none }

/-- `ModManager.get_local_mods_dict` (main.py lines 163-170): hash every
regular file of the mods directory with `hashlib.sha256(...).hexdigest()`
(the hash function `h` is an input, sha256 being external).  Each directory
entry is a name together with either its readable content or the `OSError`
that reading it raises; there is no handler in the source, so the first
such error propagates out of the whole computation. -/
def get_local_mods_dict (h : Bytes → Digest) :
    List (Name × Except PyError Bytes) → Except PyError Dict
  | [] => .ok []
  | (_, .error e) :: _ => .error e
  | (n, .ok b) :: rest =>
      match get_local_mods_dict h rest with
      | .ok d => .ok ((n, h b) :: d)
      | .error e => .error e

/-- Outcome of the single manifest request of `get_remote_mods_dict`:
either `requests.get` raises, or it returns a response whose JSON body (on
status 200) is the manifest dictionary. -/
inductive ManifestFetch where
  | exn
  | resp (status : Nat) (body : Dict)
  deriving DecidableEq

/-- `ModManager.get_remote_mods_dict` (main.py lines 158-161): returns the
parsed JSON dictionary on status 200 and falls off the end (returning
`None`, modelled `Option.none`) otherwise; a raising `requests.get`
propagates. -/
def get_remote_mods_dict : ManifestFetch → Except PyError (Option Dict)
  | .exn => .error .requestException
  | .resp status body => if status = 200 then .ok (some body) else .ok none

/-- The build's mods directory before `check_mods` runs: whether the
directory exists, and its entries (name with readable content or the read
error) when it does. -/
structure ModsState where
  dirExists : Bool
  files : List (Name × Except PyError Bytes)

/-- Observable outcome of one `check_mods` run: whether the mods directory
exists afterwards, the local inventory if hashing completed, the names
deleted, the names passed to `download_mod`, and the exception, if any,
escaping the call. -/
structure CheckModsRun where
  dirExistsAfter : Bool
  localInventory : Option Dict
  deleted : List Name
  downloaded : List Name
  error : Option PyError
  deriving DecidableEq

/-- `ModManager.check_mods` (main.py lines 172-197):
`os.makedirs(mods_directory, exist_ok=True)` first (a missing directory
becomes an empty one, an existing one is untouched), then the remote fetch,
then local hashing, then the delete loop, then the download loop.  When the
fetch returned `None` (non-2xx), the delete loop's membership test
`local_mod not in remote_mods` raises `TypeError` on the first local name,
and with no local names `remote_mods.items()` raises `AttributeError`;
either way nothing is deleted or downloaded. -/
def check_mods (h : Bytes → Digest) (fetch : ManifestFetch) (st : ModsState) : CheckModsRun :=
  let files1 := if st.dirExists then st.files else []
  match get_remote_mods_dict fetch with
  | .error e =>
      { dirExistsAfter := true, localInventory := none, deleted := [], downloaded := [],
        error := some e }
  | .ok remoteOpt =>
      match get_local_mods_dict h files1 with
      | .error e =>
          { dirExistsAfter := true, localInventory := none, deleted := [], downloaded := [],
            error := some e }
      | .ok L =>
          match remoteOpt with
          | none =>
              { dirExistsAfter := true, localInventory := some L, deleted := [], downloaded := [],
                error := some (if L.isEmpty then .attributeError else .typeError) }
          | some R =>
              { dirExistsAfter := true, localInventory := some L,
                deleted := deleteDecisions L R, downloaded := downloadDecisions L R,
                error := none }

/-- One entry of `minecraft_launcher_lib.utils.get_installed_versions`,
of which `check_fabric_version` only reads the `"id"` field. -/
structure InstalledVersion where
  id : String
  deriving DecidableEq

/-- The gate loop of `VersionManager.check_fabric_version` (main.py lines
209-213): `found` is true iff some installed version's `id` equals
`required_version` (exact string comparison).  Pure in the installed list:
no network input appears. -/
def fabricVersionFound (installed : List InstalledVersion) (required : String) : Bool :=
  installed.any (fun v => v.id == required)

/-- The high-level steps of `Launcher.play_game`'s worker `run` (main.py
lines 300-306) that the lifecycle claims are about. -/
inductive RunStep where
  | versionGate
  | fabricBootstrap
  | modReconcile
  deriving DecidableEq

/-- `Launcher.play_game`'s worker up to mod reconciliation (main.py lines
300-306): `check_fabric_version` runs the gate and, when the required
version is missing, calls `download_fabric_base`; then `check_mods` is
called.  Nothing in `run` catches an exception escaping
`check_fabric_version`, so such an exception aborts the worker before
`check_mods`; otherwise control always reaches `check_mods`.  Returns the
steps reached together with the exception, if any, escaping before
reconciliation. -/
def play_game_steps (installed : List InstalledVersion) (required : String)
    (zipBefore : Option Bytes) (fetch : HttpFetch) (extractFails removeFails : Bool) :
    List RunStep × Option PyError :=
  if fabricVersionFound installed required then
    ([.versionGate, .modReconcile], none)
  else
    let fr := download_fabric_base zipBefore fetch extractFails removeFails
    match fr.error with
    | some e => ([.versionGate, .fabricBootstrap], some e)
    | none => ([.versionGate, .fabricBootstrap, .modReconcile], none)

abbrev BuildTree := List Name

/-- `shutil.rmtree(build_path)`: removes the named build's whole tree,
raising `FileNotFoundError` when no such directory exists.  The builds
root is modelled as an association list from build name to its tree. -/
def rmtree (builds : List (Name × BuildTree)) (server : Name) :
    Except PyError (List (Name × BuildTree)) :=
  if builds.any (fun p => p.1 == server) then
    .ok (builds.filter (fun p => !(p.1 == server)))
  else .error .fileNotFoundError

/-- `VersionManager.delete_build` (main.py lines 267-273): `rmtree` wrapped
in `try/except Exception` that only logs, so no exception ever escapes and
a failed removal leaves the builds root unchanged. -/
def delete_build (builds : List (Name × BuildTree)) (server : Name) :
    Except PyError (List (Name × BuildTree)) :=
  match rmtree builds server with
  | .ok b => .ok b
  | .error _ => .ok builds

/-- Bytes received before the first mid-stream failure of a body stream. -/
def bytesBeforeFail : List StreamItem → Bytes
  | [] => []
  | .netFail :: _ => []
  | .chunk b :: rest => b ++ bytesBeforeFail rest

/-- Whether a body stream fails mid-stream. -/
def hasNetFail : List StreamItem → Bool
  | [] => false
  | .netFail :: _ => true
  | .chunk _ :: rest => hasNetFail rest

/-- Concrete hash function standing in for sha256 in concrete runs. -/
def hash0 : Bytes → Digest := fun b => String.mk (List.replicate b.length 'x')

/-- Concrete local inventory: `a.jar` and `b.jar` with their `hash0` digests. -/
def L0 : Dict := [("a.jar", "x"), ("b.jar", "xx")]

/-- Concrete remote manifest: keep `b.jar`, download `c.jar`. -/
def R0 : Dict := [("b.jar", "xx"), ("c.jar", "xxx")]

/-- Concrete mods directory whose `hash0` inventory is `L0`. -/
def st0 : ModsState :=
  { dirExists := true, files := [("a.jar", .ok [1]), ("b.jar", .ok [1, 2])] }

/-- Concrete mods directory with an unreadable file between two readable ones. -/
def files6 : List (Name × Except PyError Bytes) :=
  [("a.jar", .ok [1]), ("b.jar", .error .ioError), ("c.jar", .ok [1, 2, 3])]

theorem mem_dictKeys {d : Dict} {k : Name} : k ∈ dictKeys d ↔ ∃ v, (k, v) ∈ d := by
  simp [dictKeys, List.mem_map]

theorem mem_of_dictGet {d : Dict} {k : Name} {v : Digest}
    (h : dictGet d k = some v) : (k, v) ∈ d := by
  induction d with
  | nil => simp [dictGet] at h
  | cons p rest ih =>
    obtain ⟨a, b⟩ := p
    by_cases hk : (a == k) = true
    · simp [dictGet, hk] at h
      simp [beq_iff_eq] at hk
      simp [hk, h]
    · simp [dictGet, hk] at h
      exact List.mem_cons_of_mem _ (ih h)

theorem dictGet_of_mem {d : Dict} (hd : (dictKeys d).Nodup) {k : Name} {v : Digest}
    (hmem : (k, v) ∈ d) : dictGet d k = some v := by
  induction d with
  | nil => simp at hmem
  | cons p rest ih =>
    obtain ⟨a, b⟩ := p
    simp only [dictKeys, List.map_cons, List.nodup_cons] at hd
    rcases List.mem_cons.mp hmem with heq | hrest
    · cases heq
      simp [dictGet]
    · have hkrest : k ∈ dictKeys rest := mem_dictKeys.mpr ⟨v, hrest⟩
      have hak : ¬ (a == k) = true := by
        intro hak
        rw [beq_iff_eq] at hak
        exact hd.1 (hak ▸ hkrest)
      simp only [dictGet, if_neg hak]
      exact ih hd.2 hrest

theorem dictGet_isSome_iff {d : Dict} {k : Name} :
    (dictGet d k).isSome = true ↔ k ∈ dictKeys d := by
  constructor
  · intro h
    obtain ⟨v, hv⟩ := Option.isSome_iff_exists.mp h
    exact mem_dictKeys.mpr ⟨v, mem_of_dictGet hv⟩
  · intro h
    induction d with
    | nil => simp [dictKeys] at h
    | cons p rest ih =>
      obtain ⟨a, b⟩ := p
      by_cases hak : (a == k) = true
      · simp [dictGet, hak]
      · simp only [dictGet, if_neg hak]
        apply ih
        simp only [dictKeys, List.map_cons, List.mem_cons] at h
        rcases h with h | h
        · exact absurd (beq_iff_eq.mpr h.symm) hak
        · exact h

theorem mem_deleteDecisions {L R : Dict} {k : Name} :
    k ∈ deleteDecisions L R ↔ k ∈ dictKeys L ∧ k ∉ dictKeys R := by
  simp [deleteDecisions, List.mem_filter]

theorem mem_downloadDecisions {L R : Dict} (hR : (dictKeys R).Nodup) {k : Name} :
    k ∈ downloadDecisions L R ↔ k ∈ dictKeys R ∧ dictGet L k ≠ dictGet R k := by
  constructor
  · intro hk
    simp only [downloadDecisions, List.mem_map, List.mem_filter] at hk
    obtain ⟨⟨a, v⟩, ⟨hmem, hne⟩, rfl⟩ := hk
    have hget : dictGet R a = some v := dictGet_of_mem hR hmem
    refine ⟨mem_dictKeys.mpr ⟨v, hmem⟩, ?_⟩
    rw [hget]
    simpa using hne
  · rintro ⟨hk, hne⟩
    obtain ⟨v, hv⟩ := Option.isSome_iff_exists.mp (dictGet_isSome_iff.mpr hk)
    simp only [downloadDecisions, List.mem_map, List.mem_filter]
    refine ⟨⟨k, v⟩, ⟨mem_of_dictGet hv, ?_⟩, rfl⟩
    rw [hv] at hne
    simpa using hne

theorem mem_keepDecisions {L R : Dict} (hR : (dictKeys R).Nodup) {k : Name} :
    k ∈ keepDecisions L R ↔ k ∈ dictKeys R ∧ dictGet L k = dictGet R k := by
  constructor
  · intro hk
    simp only [keepDecisions, List.mem_map, List.mem_filter] at hk
    obtain ⟨⟨a, v⟩, ⟨hmem, heq⟩, rfl⟩ := hk
    have hget : dictGet R a = some v := dictGet_of_mem hR hmem
    refine ⟨mem_dictKeys.mpr ⟨v, hmem⟩, ?_⟩
    rw [hget]
    simpa using heq
  · rintro ⟨hk, heq⟩
    obtain ⟨v, hv⟩ := Option.isSome_iff_exists.mp (dictGet_isSome_iff.mpr hk)
    simp only [keepDecisions, List.mem_map, List.mem_filter]
    refine ⟨⟨k, v⟩, ⟨mem_of_dictGet hv, ?_⟩, rfl⟩
    rw [hv] at heq
    simpa using heq

theorem downloadLoop_pos_total {total : Nat} (ht : total ≠ 0) :
    ∀ (items : List StreamItem) (acc : Bytes),
      downloadLoop total items acc =
        (acc ++ bytesBeforeFail items,
          if hasNetFail items then some .requestException else none) := by
  intro items
  induction items with
  | nil => intro acc; simp [downloadLoop, bytesBeforeFail, hasNetFail]
  | cons it rest ih =>
    intro acc
    cases it with
    | netFail => simp [downloadLoop, bytesBeforeFail, hasNetFail]
    | chunk b => simp [downloadLoop, bytesBeforeFail, hasNetFail, ht, ih]

/-- Claim C1: the reconciliation pass deletes exactly the local names that
are not remote manifest keys, downloads exactly the remote names whose
local digest differs from the remote digest (including names absent
locally), keeps exactly the remote names whose local digest matches, and
these three decision sets partition keys(L) ∪ keys(R) with no overlaps. -/
theorem check_mods_decision_partition (h : Bytes → Digest) (st : ModsState) (L R : Dict)
    (hR : (dictKeys R).Nodup)
    (hL : (check_mods h (.resp 200 R) st).localInventory = some L) (k : Name) :
    (check_mods h (.resp 200 R) st).deleted = deleteDecisions L R ∧
    (check_mods h (.resp 200 R) st).downloaded = downloadDecisions L R ∧
    (k ∈ deleteDecisions L R ↔ k ∈ dictKeys L ∧ k ∉ dictKeys R) ∧
    (k ∈ downloadDecisions L R ↔ k ∈ dictKeys R ∧ dictGet L k ≠ dictGet R k) ∧
    (k ∈ keepDecisions L R ↔ k ∈ dictKeys R ∧ dictGet L k = dictGet R k) ∧
    ¬(k ∈ deleteDecisions L R ∧ k ∈ downloadDecisions L R) ∧
    ¬(k ∈ deleteDecisions L R ∧ k ∈ keepDecisions L R) ∧
    ¬(k ∈ downloadDecisions L R ∧ k ∈ keepDecisions L R) ∧
    ((k ∈ deleteDecisions L R ∨ k ∈ downloadDecisions L R ∨ k ∈ keepDecisions L R) ↔
      (k ∈ dictKeys L ∨ k ∈ dictKeys R)) := by
  have h1 := @mem_deleteDecisions L R k
  have h2 := mem_downloadDecisions (L := L) hR (k := k)
  have h3 := mem_keepDecisions (L := L) hR (k := k)
  have hruns : (check_mods h (.resp 200 R) st).deleted = deleteDecisions L R ∧
      (check_mods h (.resp 200 R) st).downloaded = downloadDecisions L R := by
    cases hg : get_local_mods_dict h (if st.dirExists then st.files else []) with
    | error e => simp [check_mods, get_remote_mods_dict, hg] at hL
    | ok Linv =>
      have hLL : Linv = L := by
        simp [check_mods, get_remote_mods_dict, hg] at hL
        exact hL
      subst hLL
      constructor <;> simp [check_mods, get_remote_mods_dict, hg]
  refine ⟨hruns.1, hruns.2, h1, h2, h3, ?_, ?_, ?_, ?_⟩
  · rintro ⟨hd, hw⟩
    exact (h1.mp hd).2 (h2.mp hw).1
  · rintro ⟨hd, hw⟩
    exact (h1.mp hd).2 (h3.mp hw).1
  · rintro ⟨hd, hw⟩
    exact (h2.mp hd).2 (h3.mp hw).2
  · constructor
    · rintro (hd | hd | hd)
      · exact Or.inl (h1.mp hd).1
      · exact Or.inr (h2.mp hd).1
      · exact Or.inr (h3.mp hd).1
    · intro hor
      by_cases hkR : k ∈ dictKeys R
      · by_cases heq : dictGet L k = dictGet R k
        · exact Or.inr (Or.inr (h3.mpr ⟨hkR, heq⟩))
        · exact Or.inr (Or.inl (h2.mpr ⟨hkR, heq⟩))
      · rcases hor with hkL | hkR2
        · exact Or.inl (h1.mpr ⟨hkL, hkR⟩)
        · exact absurd hkR2 hkR

/-- Witness for the claim C1 theorem at the spec's example scenario
(local `a.jar`, `b.jar`; remote `b.jar` matching, `c.jar` new). -/
theorem check_mods_decision_partition_witness :
    (dictKeys R0).Nodup ∧
    (check_mods hash0 (.resp 200 R0) st0).localInventory = some L0 ∧
    (check_mods hash0 (.resp 200 R0) st0).deleted = deleteDecisions L0 R0 := by
  refine ⟨by decide, by decide, ?_⟩
  exact (check_mods_decision_partition hash0 st0 L0 R0 (by decide) (by decide) "a.jar").1

/-- Claim C2 counterexample: a mod download with a pre-existing file at the
final destination path, interrupted by a mid-stream transport failure after
one chunk, leaves a partial file at the final destination that is neither
the pre-existing file nor absent — and the error is swallowed. -/
theorem download_mod_partial_counterexample :
    (download_mod (some [1, 2, 3]) (.resp 200 (some 10) [.chunk [9], .netFail])).1 ≠
        some [1, 2, 3] ∧
    (download_mod (some [1, 2, 3]) (.resp 200 (some 10) [.chunk [9], .netFail])).1 ≠ none ∧
    (download_mod (some [1, 2, 3]) (.resp 200 (some 10) [.chunk [9], .netFail])).2 = none := by
  decide

/-- Claim C2 (amended): `download_mod` writes straight to the final
destination path.  On a transport exception from `requests.get` or on a
non-2xx status nothing is written and the pre-existing file, if any, is
untouched; but on a 200 response (with nonzero total) the file at the final
destination afterwards holds exactly the bytes received before any
mid-stream failure — an interrupted transfer leaves the partial prefix
under the final name, with the transport error caught and swallowed. -/
theorem download_mod_partial_file (existing : Option Bytes) (s : Nat) (cl : Option Nat)
    (items : List StreamItem) (hcl : totalSizeOf cl ≠ 0) :
    (s ≠ 200 → download_mod existing (.resp s cl items) = (existing, none)) ∧
    download_mod existing (.resp 200 cl items) = (some (bytesBeforeFail items), none) ∧
    download_mod existing .exn = (existing, none) := by
  refine ⟨fun hs => by simp [download_mod, hs], ?_, rfl⟩
  simp only [download_mod]
  rw [downloadLoop_pos_total hcl items []]
  cases hnf : hasNetFail items <;> simp [hnf]

/-- Witness for the amended C2 theorem at the counterexample's input. -/
theorem download_mod_partial_file_witness :
    totalSizeOf (some 10) ≠ 0 ∧
    download_mod (some [1, 2, 3]) (.resp 200 (some 10) [.chunk [9], .netFail]) =
      (some [9], none) := by
  refine ⟨by decide, ?_⟩
  simpa using (download_mod_partial_file (some [1, 2, 3]) 200 (some 10)
    [.chunk [9], .netFail] (by decide)).2.1

/-- Claim C3 counterexample: with the required version not installed, the
version archive download fails with a 404 — the bootstrap did not succeed
(nothing extracted, no archive written) — yet the worker continues and
enters mod reconciliation instead of aborting. -/
theorem bootstrap_failure_still_reconciles :
    (download_fabric_base none (.resp 404 none []) false false).extractionDone = false ∧
    (download_fabric_base none (.resp 404 none []) false false).zipAfter = none ∧
    (play_game_steps [] "fabric-loader-0.15" none (.resp 404 none []) false false).2 = none ∧
    RunStep.modReconcile ∈
      (play_game_steps [] "fabric-loader-0.15" none (.resp 404 none []) false false).1 := by
  decide

/-- Claim C3 (amended): a failed version bootstrap does not in general
abort the run.  A non-2xx archive download or a failed extraction is only
logged and the worker proceeds into mod reconciliation; the worker aborts
before reconciliation exactly when an exception escapes the bootstrap (a
transport failure of `requests.get` or of the stream, or the zero-total
percent division). -/
theorem play_game_abort_iff_exception (installed : List InstalledVersion) (required : String)
    (zipBefore : Option Bytes) (fetch : HttpFetch) (ef rf : Bool) :
    ((play_game_steps installed required zipBefore fetch ef rf).2.isSome = true →
      RunStep.modReconcile ∉ (play_game_steps installed required zipBefore fetch ef rf).1) ∧
    ((play_game_steps installed required zipBefore fetch ef rf).2 = none →
      RunStep.modReconcile ∈ (play_game_steps installed required zipBefore fetch ef rf).1) := by
  by_cases hf : fabricVersionFound installed required = true
  · constructor
    · intro hs
      simp [play_game_steps, hf] at hs
    · intro _
      simp [play_game_steps, hf]
  · rw [Bool.not_eq_true] at hf
    cases herr : (download_fabric_base zipBefore fetch ef rf).error <;>
      constructor <;> simp [play_game_steps, hf, herr]

/-- Witness for the amended C3 theorem: a transport exception during the
bootstrap aborts the worker before mod reconciliation. -/
theorem play_game_abort_iff_exception_witness :
    RunStep.modReconcile ∉
      (play_game_steps [] "fabric-loader-0.15" none .exn false false).1 :=
  (play_game_abort_iff_exception [] "fabric-loader-0.15" none .exn false false).1 (by decide)

/-- Claim C4 counterexample: a 200 response carrying no Content-Length
header and one received chunk makes the percent computation divide by the
zero total: a `ZeroDivisionError` escapes `download_mod` instead of the
download completing with indeterminate progress. -/
theorem no_content_length_divides_by_zero :
    (download_mod none (.resp 200 none [.chunk [1]])).2 =
      some PyError.zeroDivisionError := by
  decide

/-- Claim C4 (amended): when the response carries no Content-Length header
the total size is taken to be `0`, and the first received chunk makes
`int(downloaded * 100 / total_size)` raise `ZeroDivisionError`, which
neither `download_mod` nor `download_fabric_base` catches; the chunk is
already written when the error escapes.  Only an empty body stream
completes without error (leaving an empty file at the destination). -/
theorem zero_total_chunk_raises (existing zipBefore : Option Bytes) (cl : Option Nat)
    (b : Bytes) (rest : List StreamItem) (ef rf : Bool) (hcl : totalSizeOf cl = 0) :
    download_mod existing (.resp 200 cl (.chunk b :: rest)) =
      (some b, some .zeroDivisionError) ∧
    download_fabric_base zipBefore (.resp 200 cl (.chunk b :: rest)) ef rf =
      { zipAfter := some b, extractionDone := false, error := some .zeroDivisionError } ∧
    download_mod existing (.resp 200 cl []) = (some [], none) := by
  refine ⟨?_, ?_, by simp [download_mod, downloadLoop]⟩
  · simp [download_mod, downloadLoop, hcl]
  · simp [download_fabric_base, downloadLoop, hcl]

/-- Witness for the amended C4 theorem at a header-less 200 response. -/
theorem zero_total_chunk_raises_witness :
    totalSizeOf none = 0 ∧
    download_mod none (.resp 200 none [.chunk [1]]) =
      (some [1], some .zeroDivisionError) := by
  refine ⟨rfl, ?_⟩
  exact (zero_total_chunk_raises none none none [1] [] false false rfl).1

/-- Claim C5 counterexample: a successfully downloaded archive whose
extraction fails is deleted anyway — afterwards no archive exists at its
on-disk path, and no error escapes (nothing plays the role of
`CorruptArchive`; the failure is logged and swallowed). -/
theorem corrupt_archive_deleted_anyway :
    download_fabric_base none (.resp 200 (some 1) [.chunk [7]]) true false =
      { zipAfter := none, extractionDone := false, error := none } := by
  decide

/-- Claim C5 (amended): when extraction cannot complete, the failure is
only logged — no error escapes the installer — and the source archive is
nonetheless deleted by the unconditional `os.remove`; the archive survives
only when that removal itself fails. -/
theorem failed_extraction_archive_removed (zipBefore : Option Bytes) (cl : Option Nat)
    (items : List StreamItem) (rf : Bool) (hcl : totalSizeOf cl ≠ 0)
    (hnf : hasNetFail items = false) :
    download_fabric_base zipBefore (.resp 200 cl items) true rf =
      { zipAfter := if rf then some (bytesBeforeFail items) else none,
        extractionDone := false, error := none } := by
  simp only [download_fabric_base]
  rw [downloadLoop_pos_total hcl items []]
  simp [hnf]

/-- Witness for the amended C5 theorem: extraction fails and the archive
removal also fails, so the archive happens to survive, still with no error
escaping. -/
theorem failed_extraction_archive_removed_witness :
    totalSizeOf (some 1) ≠ 0 ∧ hasNetFail [StreamItem.chunk [7]] = false ∧
    download_fabric_base none (.resp 200 (some 1) [.chunk [7]]) true true =
      { zipAfter := some [7], extractionDone := false, error := none } := by
  refine ⟨by decide, rfl, ?_⟩
  simpa using failed_extraction_archive_removed none (some 1) [.chunk [7]] true
    (by decide) rfl

/-- Claim C6 counterexample: with one unreadable file between two readable
ones and a remote manifest that needs `c.jar`, the pass aborts with the
`IOError`: no inventory is produced, nothing is deleted and nothing is
downloaded, even though readable files remained to reconcile. -/
theorem unreadable_file_aborts_pass :
    check_mods hash0 (.resp 200 R0) { dirExists := true, files := files6 } =
      { dirExistsAfter := true, localInventory := none, deleted := [], downloaded := [],
        error := some PyError.ioError } ∧
    "c.jar" ∈ dictKeys R0 := by
  decide

/-- Claim C6 (amended): `get_local_mods_dict` has no exception handler, so
the first unreadable file's `IOError` propagates: the inventory computation
aborts at that file (readable files before and after it contribute
nothing), and `check_mods` aborts with that error before deleting or
downloading anything. -/
theorem unreadable_file_propagates (h : Bytes → Digest) (pre : List (Name × Bytes))
    (n : Name) (e : PyError) (post : List (Name × Except PyError Bytes)) (R : Dict) :
    get_local_mods_dict h
        (pre.map (fun p => (p.1, Except.ok p.2)) ++ (n, Except.error e) :: post) =
      .error e ∧
    check_mods h (.resp 200 R)
        { dirExists := true,
          files := pre.map (fun p => (p.1, Except.ok p.2)) ++ (n, Except.error e) :: post } =
      { dirExistsAfter := true, localInventory := none, deleted := [], downloaded := [],
        error := some e } := by
  have hg : get_local_mods_dict h
      (pre.map (fun p => (p.1, Except.ok p.2)) ++ (n, Except.error e) :: post) = .error e := by
    induction pre with
    | nil => simp [get_local_mods_dict]
    | cons p rest ih => simp [get_local_mods_dict, ih]
  refine ⟨hg, ?_⟩
  simp [check_mods, get_remote_mods_dict, hg]

/-- Claim C7: whenever the remote manifest fetch fails — a transport
exception or any non-2xx response — the reconciliation pass surfaces an
error (no successful outcome is produced) and no local mod file is deleted
(and none downloaded): the deletion loop only ever runs after a fetch that
returned status 200 with a manifest body. -/
theorem fetch_failure_no_deletions (h : Bytes → Digest) (fetch : ManifestFetch)
    (st : ModsState) (hfail : ∀ body : Dict, fetch ≠ .resp 200 body) :
    (check_mods h fetch st).deleted = [] ∧ (check_mods h fetch st).downloaded = [] ∧
    (check_mods h fetch st).error.isSome = true := by
  cases fetch with
  | exn => simp [check_mods, get_remote_mods_dict]
  | resp s body =>
    have hs : s ≠ 200 := by
      intro h200
      exact hfail body (by rw [h200])
    cases hg : get_local_mods_dict h (if st.dirExists then st.files else []) <;>
      simp [check_mods, get_remote_mods_dict, hs, hg]

/-- Witness for the claim C7 theorem at a transport-failure fetch. -/
theorem fetch_failure_no_deletions_witness :
    (check_mods hash0 .exn st0).deleted = [] ∧
    (check_mods hash0 .exn st0).downloaded = [] ∧
    (check_mods hash0 .exn st0).error.isSome = true :=
  fetch_failure_no_deletions hash0 .exn st0 (fun body h => by cases h)

/-- Claim C8: the version gate considers the version installed — and the
bootstrap is skipped — iff some locally installed version's identifier
string-equals the required identifier exactly; the gate's decision is a
pure function of the installed list, independent of every network input
(the universally quantified `fetch`). -/
theorem version_gate_exact_match (installed : List InstalledVersion) (required : String)
    (zipBefore : Option Bytes) (fetch : HttpFetch) (ef rf : Bool) :
    (fabricVersionFound installed required = true ↔ ∃ v ∈ installed, v.id = required) ∧
    (RunStep.fabricBootstrap ∉ (play_game_steps installed required zipBefore fetch ef rf).1 ↔
      ∃ v ∈ installed, v.id = required) := by
  have hfound : fabricVersionFound installed required = true ↔
      ∃ v ∈ installed, v.id = required := by
    simp [fabricVersionFound, List.any_eq_true]
  have hmem : RunStep.fabricBootstrap ∈
      (play_game_steps installed required zipBefore fetch ef rf).1 ↔
      ¬ fabricVersionFound installed required = true := by
    by_cases hf : fabricVersionFound installed required = true
    · simp [play_game_steps, hf]
    · rw [Bool.not_eq_true] at hf
      cases herr : (download_fabric_base zipBefore fetch ef rf).error <;>
        simp [play_game_steps, hf, herr]
  refine ⟨hfound, ?_, ?_⟩
  · intro hnot
    refine hfound.mp ?_
    by_contra hf
    exact hnot (hmem.mpr hf)
  · intro hex hmem2
    exact (hmem.mp hmem2) (hfound.mpr hex)

/-- Claim C9: `delete_build` never lets an exception escape: destroying a
build whose directory does not exist leaves the builds root unchanged and
completes without error, and destroying twice in a row completes without
error both times, the second call finding nothing left to remove. -/
theorem delete_build_idempotent (builds : List (Name × BuildTree)) (server : Name) :
    (server ∉ builds.map Prod.fst → delete_build builds server = .ok builds) ∧
    ∃ b1, delete_build builds server = .ok b1 ∧ delete_build b1 server = .ok b1 := by
  have habs : ∀ bs : List (Name × BuildTree), server ∉ bs.map Prod.fst →
      delete_build bs server = .ok bs := by
    intro bs hnot
    have hany : bs.any (fun p => p.1 == server) = false := by
      by_contra hany
      rw [Bool.not_eq_false, List.any_eq_true] at hany
      obtain ⟨p, hp, hpe⟩ := hany
      rw [beq_iff_eq] at hpe
      exact hnot (hpe ▸ List.mem_map_of_mem Prod.fst hp)
    simp [delete_build, rmtree, hany]
  refine ⟨habs builds, ?_⟩
  by_cases hany : builds.any (fun p => p.1 == server) = true
  · refine ⟨builds.filter (fun p => !(p.1 == server)), ?_, ?_⟩
    · simp [delete_build, rmtree, hany]
    · apply habs
      intro hmem
      rw [List.mem_map] at hmem
      obtain ⟨p, hp, hpe⟩ := hmem
      rw [List.mem_filter] at hp
      have hp2 := hp.2
      simp [hpe] at hp2
  · rw [Bool.not_eq_true] at hany
    have hmiss : server ∉ builds.map Prod.fst := by
      intro hmem
      rw [List.mem_map] at hmem
      obtain ⟨p, hp, hpe⟩ := hmem
      have hc : builds.any (fun q => q.1 == server) = true :=
        List.any_eq_true.mpr ⟨p, hp, beq_iff_eq.mpr hpe⟩
      rw [hany] at hc
      cases hc
    exact ⟨builds, habs builds hmiss, habs builds hmiss⟩

/-- Witness for the claim C9 theorem: destroying a build absent from the
builds root leaves it unchanged and completes without error. -/
theorem delete_build_idempotent_witness :
    "missing" ∉ ([("alpha", ["mods"])] : List (Name × BuildTree)).map Prod.fst ∧
    delete_build [("alpha", ["mods"])] "missing" = .ok [("alpha", ["mods"])] := by
  refine ⟨by decide, ?_⟩
  exact (delete_build_idempotent [("alpha", ["mods"])] "missing").1 (by decide)

/-- Claim C10: `check_mods` begins with `os.makedirs(..., exist_ok=True)`:
a build that never had a mods directory gets an empty one, the local
inventory comes out empty, the pass completes without error, deletes
nothing and downloads every remote manifest entry; an already existing
directory is left untouched and the inventory is computed from its files. -/
theorem fresh_mods_dir_downloads_all (h : Bytes → Digest) (R : Dict)
    (files : List (Name × Except PyError Bytes)) :
    (check_mods h (.resp 200 R) { dirExists := false, files := files } =
      { dirExistsAfter := true, localInventory := some [], deleted := [],
        downloaded := dictKeys R, error := none }) ∧
    (check_mods h (.resp 200 R) { dirExists := true, files := files }).localInventory =
      (get_local_mods_dict h files).toOption := by
  constructor
  · have hdl : downloadDecisions [] R = dictKeys R := by
      have hfilter : R.filter (fun q => !(dictGet [] q.1 == some q.2)) = R := by
        apply List.filter_eq_self.mpr
        intro a _
        simp [dictGet]
      simp [downloadDecisions, dictKeys, hfilter]
    simp [check_mods, get_remote_mods_dict, get_local_mods_dict, hdl,
      deleteDecisions, dictKeys]
  · cases hg : get_local_mods_dict h files <;>
      simp [check_mods, get_remote_mods_dict, hg, Except.toOption]

end YummyCraft
